import Mathlib

/-!
Verification development for the SOC event-triage pipeline
(`soc-ia-mitre`): shallow Lean embeddings of the feature extractor
(`agents/features.py`), the MITRE technique mapper
(`agents/mitre_mapper.py`), the trust calibrator
(`agents/trust_agent.py`) and the explanation synthesizer
(`agents/xai_explainer.py`), together with theorems checking the
natural-language specification against them.

Modelling conventions:
- Python dict events become a structure of `Option` fields (`none` is an
  absent key).
- Python floats are idealized as `ℚ` where the code only compares and
  averages (feature values, pattern confidences, ECE), and as `ℝ` where
  the code goes through `log`/`exp` (temperature scaling).
- External library primitives that the code calls with data-dependent
  arguments (`datetime.fromisoformat`, `re.search`, `datetime.now`) are
  parameters of the embedding; every branch around them is translated
  from the source.
- A Python `try`/`except` is a `match` on an `Option` result; the code is
  total, so "never raises" holds by construction.
-/

namespace SOC

/-! ## features.py -/

/-- The slice of a parsed `datetime` the extractor consumes: `.hour`,
`.weekday()`, and an absolute time in seconds used for the subtraction
`(current_time - past_time).total_seconds()`. -/
structure PyDateTime where
  hour : Nat
  weekday : Nat
  epochSec : ℚ
deriving DecidableEq

/-- A security event (a `Dict` in the source). `none` models an absent
key. -/
structure Event where
  id : Option String := none
  timestamp : Option String := none
  srcIp : Option String := none
  dstIp : Option String := none
  srcPort : Option Int := none
  dstPort : Option Int := none
  eventType : Option String := none
  message : Option String := none
deriving DecidableEq

/-- Results of the three fixed regular expressions of
`_extract_content_features`, abstracted as oracles (the regex engine is
an external library): `\d{1,3}\.\d{1,3}\.\d{1,3}\.\d{1,3}`,
`https?://`, and the first match of `\b([1-5]\d{2})\b` as an integer. -/
structure RegexOracle where
  hasIpPattern : String → Bool
  hasUrlPattern : String → Bool
  httpCode : String → Option Nat

/-- Environment of one extraction: the `datetime.fromisoformat` parser
(`none` models a raising parse), the current wall-clock time
(`datetime.now()`), and the regex oracles. -/
structure ExtractEnv where
  parseIso : String → Option PyDateTime
  now : PyDateTime
  regex : RegexOracle

/-- Python `l[-n:]`. -/
def pyTakeLast {α : Type} (n : Nat) (l : List α) : List α :=
  l.drop (l.length - n)

/-- Python `needle in hay` (substring containment). -/
def pyContains (needle hay : String) : Bool :=
  hay.data.tails.any (fun t => needle.data.isPrefixOf t)

/-- `_extract_temporal_features` output (`hour`, `day_of_week`,
`is_weekend`, `is_night`). -/
structure TemporalFeatures where
  hour : Nat
  dayOfWeek : Nat
  isWeekend : Nat
  isNight : Nat
deriving DecidableEq

/-- The four temporal feature values computed from a `datetime` value
inside the `try` block of `_extract_temporal_features`. -/
def temporalOfDateTime (dt : PyDateTime) : TemporalFeatures :=
  { hour := dt.hour
    dayOfWeek := dt.weekday
    isWeekend := if dt.weekday ≥ 5 then 1 else 0
    isNight := if dt.hour < 6 ∨ dt.hour > 22 then 1 else 0 }

/-- `FeatureExtractor._extract_temporal_features`: a string timestamp is
parsed after `.replace('Z', '+00:00')`; a parse failure (the `except`
branch) zeroes all four features; a missing (non-string) timestamp falls
back to `datetime.now()`. -/
def extractTemporalFeatures (env : ExtractEnv) (event : Event) : TemporalFeatures :=
  match event.timestamp with
  | some ts =>
    match env.parseIso (ts.replace "Z" "+00:00") with
    | some dt => temporalOfDateTime dt
    | none => { hour := 0, dayOfWeek := 0, isWeekend := 0, isNight := 0 }
  | none => temporalOfDateTime env.now

/-- Python `s.split(sep)` for a one-character separator, over the
character list (`''.split('.') == ['']`). -/
def splitOnChar (sep : Char) : List Char → List (List Char)
  | [] => [[]]
  | c :: rest =>
    let r := splitOnChar sep rest
    if c = sep then [] :: r
    else
      match r with
      | [] => [[c]]
      | g :: gs => (c :: g) :: gs

/-- Whitespace stripped by Python `int`
(`' ', \t, \n, \r, \x0b, \x0c`). -/
def pySpace (c : Char) : Bool :=
  c = ' ' ∨ c = '\t' ∨ c = '\n' ∨ c = '\r' ∨ c = '\x0b' ∨ c = '\x0c'

/-- Digit run of a Python integer literal: digits with single
underscores allowed between digits, accumulated into a value. -/
def pyDigits (acc : Nat) : List Char → Option Nat
  | [] => some acc
  | c :: rest =>
    if c.isDigit then pyDigits (acc * 10 + (c.toNat - 48)) rest
    else if c = '_' then
      match rest with
      | [] => none
      | c2 :: rest2 =>
        if c2.isDigit then pyDigits (acc * 10 + (c2.toNat - 48)) rest2 else none
    else none

/-- Unsigned part of Python `int(...)`: a non-empty digit run. -/
def pyNatCore : List Char → Option Nat
  | [] => none
  | c :: rest =>
    if c.isDigit then pyDigits (c.toNat - 48) rest else none

/-- Signed part of Python `int(...)`. -/
def pyIntCore : List Char → Option Int
  | [] => none
  | c :: rest =>
    if c = '+' then (pyNatCore rest).map (fun n => (n : Int))
    else if c = '-' then (pyNatCore rest).map (fun n => -(n : Int))
    else (pyNatCore (c :: rest)).map (fun n => (n : Int))

/-- Python `int(p)` on a string part (ASCII semantics): strip
surrounding whitespace, optional sign, digits with optional single
internal underscores; `none` models a raising conversion. -/
def pyInt (l : List Char) : Option Int :=
  pyIntCore (((l.dropWhile pySpace).reverse.dropWhile pySpace).reverse)

/-- `FeatureExtractor._is_private_ip`: Python `int` applied to each
dot-separated part (any failure is caught and classifies as
non-private), then the RFC1918 first/second-octet tests; the
out-of-range index access `parts[1]` on a one-part split is likewise
caught by the `except` clause. -/
def pyIsPrivateIp (ip : String) : Bool :=
  if ip = "" then false
  else
    match (splitOnChar '.' ip.data).mapM pyInt with
    | none => false
    | some parts =>
      match parts with
      | [] => false
      | p0 :: rest =>
        if p0 = 10 then true
        else if p0 = 172 then
          match rest with
          | [] => false
          | p1 :: _ => decide (16 ≤ p1 ∧ p1 ≤ 31)
        else if p0 = 192 then
          match rest with
          | [] => false
          | p1 :: _ => decide (p1 = 168)
        else false

/-- `_extract_network_features` output. -/
structure NetworkFeatures where
  srcIsPrivate : Nat
  dstIsPrivate : Nat
  srcPort : Int
  dstPort : Int
  isCommonPort : Nat
deriving DecidableEq

/-- `FeatureExtractor._extract_network_features`. -/
def extractNetworkFeatures (event : Event) : NetworkFeatures :=
  let srcIp := event.srcIp.getD ""
  let dstIp := event.dstIp.getD ""
  let srcPort := event.srcPort.getD 0
  let dstPort := event.dstPort.getD 0
  { srcIsPrivate := if pyIsPrivateIp srcIp then 1 else 0
    dstIsPrivate := if pyIsPrivateIp dstIp then 1 else 0
    srcPort := if srcPort ≠ 0 then srcPort else 0
    dstPort := if dstPort ≠ 0 then dstPort else 0
    isCommonPort := if dstPort ∈ [22, 80, 443, 3389, 21, 23] then 1 else 0 }

/-- `_extract_frequency_features` output. -/
structure FrequencyFeatures where
  sameIpFrequency : Nat
  sameTypeFrequency : Nat
  timeSinceLastSimilar : ℚ
deriving DecidableEq

/-- Loop of `_time_since_last_similar` over `reversed(self.event_history)`:
first entry matching both `src_ip` and `event_type` whose timestamp
parses yields `max(delta, 0.1)`; a parse failure inside the loop is
`pass`ed over. -/
def timeSinceLoop (env : ExtractEnv) (srcIp eventType : String) (cur : PyDateTime) :
    List Event → ℚ
  | [] => 9999
  | e :: rest =>
    if e.srcIp = some srcIp ∧ e.eventType = some eventType then
      match env.parseIso ((e.timestamp.getD "").replace "Z" "+00:00") with
      | some past => max (cur.epochSec - past.epochSec) (1 / 10)
      | none => timeSinceLoop env srcIp eventType cur rest
    else timeSinceLoop env srcIp eventType cur rest

/-- `FeatureExtractor._time_since_last_similar`. A missing timestamp
defaults to `datetime.now().isoformat()`, which always parses back to
the current time; an unparsable current timestamp returns the sentinel
9999.0. -/
def timeSinceLastSimilar (env : ExtractEnv) (history : List Event) (event : Event) : ℚ :=
  let srcIp := event.srcIp.getD ""
  let eventType := event.eventType.getD ""
  let currentTime :=
    match event.timestamp with
    | some ts => env.parseIso (ts.replace "Z" "+00:00")
    | none => some env.now
  match currentTime with
  | none => 9999
  | some cur => timeSinceLoop env srcIp eventType cur history.reverse

/-- `FeatureExtractor._extract_frequency_features` (reads the extractor
history, last 100 entries). -/
def extractFrequencyFeatures (env : ExtractEnv) (history : List Event) (event : Event) :
    FrequencyFeatures :=
  let srcIp := event.srcIp.getD ""
  let eventType := event.eventType.getD ""
  let recent := pyTakeLast 100 history
  { sameIpFrequency := (recent.filter (fun e => decide (e.srcIp = some srcIp))).length
    sameTypeFrequency := (recent.filter (fun e => decide (e.eventType = some eventType))).length
    timeSinceLastSimilar := timeSinceLastSimilar env history event }

/-- `_extract_content_features` output. -/
structure ContentFeatures where
  suspiciousKeywordCount : Nat
  messageLength : Nat
  specialCharRatio : ℚ
  hasIpPattern : Nat
  hasUrlPattern : Nat
  httpCode : Nat
  isHttpError : Nat
deriving DecidableEq

/-- Fixed suspicious-keyword list of `_extract_content_features`. -/
def suspiciousKeywords : List String :=
  ["failed", "invalid", "denied", "error", "attack",
   "scan", "exploit", "brute", "unauthorized", "forbidden"]

/-- `FeatureExtractor._extract_content_features` (ASCII semantics for
`lower`, `isalnum`, `isspace`). -/
def extractContentFeatures (env : ExtractEnv) (event : Event) : ContentFeatures :=
  let message := (event.message.getD "").toLower
  let httpCode := (env.regex.httpCode message).getD 0
  { suspiciousKeywordCount :=
      (suspiciousKeywords.filter (fun kw => pyContains kw message)).length
    messageLength := message.length
    specialCharRatio :=
      ((message.data.filter (fun c => ¬ c.isAlphanum ∧ ¬ c.isWhitespace)).length : ℚ) /
        (max message.length 1 : Nat)
    hasIpPattern := if env.regex.hasIpPattern message then 1 else 0
    hasUrlPattern := if env.regex.hasUrlPattern message then 1 else 0
    httpCode := httpCode
    isHttpError := if httpCode ≥ 400 then 1 else 0 }

/-- `_extract_behavioral_features` output. -/
structure BehavioralFeatures where
  eventTypeEncoded : Nat
  isRepeatedFailure : Nat
  isRapidSuccession : Nat
deriving DecidableEq

/-- Fixed event-type encoding table of `_extract_behavioral_features`. -/
def typeMapping : List (String × Nat) :=
  [("ssh_attempt", 1), ("http_request", 2), ("port_scan", 3), ("dns_query", 4),
   ("file_access", 5), ("login_success", 6), ("login_failure", 7)]

/-- `FeatureExtractor._is_repeated_failure`. -/
def isRepeatedFailure (history : List Event) (event : Event) : Nat :=
  let message := (event.message.getD "").toLower
  let srcIp := event.srcIp.getD ""
  if ¬ pyContains "failed" message ∧ ¬ pyContains "denied" message then 0
  else
    let recent := pyTakeLast 20 history
    let failureCount :=
      (recent.filter (fun e =>
        e.srcIp = some srcIp ∧
          (pyContains "failed" ((e.message.getD "").toLower) ∨
            pyContains "denied" ((e.message.getD "").toLower)))).length
    if failureCount ≥ 3 then 1 else 0

/-- `FeatureExtractor._is_rapid_succession`. -/
def isRapidSuccession (history : List Event) (event : Event) : Nat :=
  let srcIp := event.srcIp.getD ""
  let recent := pyTakeLast 10 history
  if (recent.filter (fun e => decide (e.srcIp = some srcIp))).length ≥ 5 then 1 else 0

/-- `FeatureExtractor._extract_behavioral_features`. -/
def extractBehavioralFeatures (history : List Event) (event : Event) : BehavioralFeatures :=
  let eventType := event.eventType.getD ""
  { eventTypeEncoded := ((typeMapping.lookup eventType).getD 0)
    isRepeatedFailure := isRepeatedFailure history event
    isRapidSuccession := isRapidSuccession history event }

/-- The full feature dict assembled by `FeatureExtractor.extract`
(the five `features.update(...)` groups). -/
structure Features where
  temporal : TemporalFeatures
  network : NetworkFeatures
  frequency : FrequencyFeatures
  content : ContentFeatures
  behavioral : BehavioralFeatures
deriving DecidableEq

/-- Mutable state of a `FeatureExtractor` (`self.event_history`). -/
structure FeatureExtractorState where
  eventHistory : List Event
deriving DecidableEq

/-- `self.max_history`. -/
def maxHistory : Nat := 1000

/-- A freshly constructed `FeatureExtractor()`. -/
def initialExtractorState : FeatureExtractorState := ⟨[]⟩

/-- `FeatureExtractor._update_history`: append, then truncate to the
last `max_history` entries when exceeded. -/
def updateHistory (st : FeatureExtractorState) (event : Event) : FeatureExtractorState :=
  let h := st.eventHistory ++ [event]
  ⟨if h.length > maxHistory then pyTakeLast maxHistory h else h⟩

/-- `FeatureExtractor.extract`: computes the five feature groups against
the current history, then appends the event to the history. -/
def extract (env : ExtractEnv) (st : FeatureExtractorState) (event : Event) :
    Features × FeatureExtractorState :=
  (⟨extractTemporalFeatures env event,
    extractNetworkFeatures event,
    extractFrequencyFeatures env st.eventHistory event,
    extractContentFeatures env event,
    extractBehavioralFeatures st.eventHistory event⟩,
   updateHistory st event)

/-- Sequential extraction of a batch of events, threading the history
state (how the orchestrator drives `extract`). -/
def extractAll (env : ExtractEnv) : FeatureExtractorState → List Event → List Features
  | _, [] => []
  | st, e :: rest =>
    let r := extract env st e
    r.1 :: extractAll env r.2 rest

/-! Spec-side definitions for C2: a well-formed dotted-quad IPv4 address
and RFC1918 membership, written from the spec's words ("the string is an
IPv4 address lying in 10.0.0.0/8, 172.16.0.0/12 or 192.168.0.0/16"). -/

/-- Decimal value of a digit string. -/
def digitsVal (l : List Char) : Nat :=
  l.foldl (fun acc c => acc * 10 + (c.toNat - 48)) 0

/-- A single decimal IPv4 octet: non-empty, all digits, value ≤ 255. -/
def octetVal (l : List Char) : Option Nat :=
  if l ≠ [] ∧ l.all Char.isDigit ∧ digitsVal l ≤ 255 then
    some (digitsVal l)
  else none

/-- Parse a well-formed dotted-quad IPv4 string into its four octets;
`none` for every malformed string. -/
def ipv4Parse (s : String) : Option (Nat × Nat × Nat × Nat) :=
  match splitOnChar '.' s.data with
  | [a, b, c, d] =>
    match octetVal a, octetVal b, octetVal c, octetVal d with
    | some va, some vb, some vc, some vd => some (va, vb, vc, vd)
    | _, _, _, _ => none
  | _ => none

/-- RFC1918 membership of a dotted quad: 10.0.0.0/8, 172.16.0.0/12,
192.168.0.0/16. -/
def rfc1918 (a b : Nat) : Bool :=
  decide (a = 10 ∨ (a = 172 ∧ 16 ≤ b ∧ b ≤ 31) ∨ (a = 192 ∧ b = 168))

/-! ## mitre_mapper.py -/

/-- A row of the MITRE knowledge base (`data/mitre_db.csv` columns
`technique, name, tactique, description, patterns`, patterns
pipe-delimited). -/
structure MitreRow where
  technique : String
  name : String
  tactique : String
  description : String
  patterns : String
deriving DecidableEq

/-- A per-event technique match emitted by `MitreMapper.map_event`. -/
structure TechniqueMatch where
  techniqueId : String
  techniqueName : String
  tactic : String
  description : String
  confidence : ℚ
  matchedPatterns : List String
  matchCount : Nat
  totalPatterns : Nat
deriving DecidableEq

/-- Python `str.strip()` (ASCII whitespace). -/
def pyStrip (s : String) : String := s.trim

/-- The combined search string of `map_event`:
`f"{message} {event_type}"`, both lower-cased. -/
def fullContent (event : Event) : String :=
  (event.message.getD "").toLower ++ " " ++ (event.eventType.getD "").toLower

/-- The loop body of `map_event` for one knowledge-base row:
`pm pat content` abstracts `re.search(pat, content, re.IGNORECASE)`.
The row is emitted only when at least one stripped pattern matches;
`confidence = min(matches_count / len(patterns), 1.0)`. -/
def matchRow (pm : String → String → Bool) (content : String) (row : MitreRow) :
    Option TechniqueMatch :=
  let patterns := row.patterns.splitOn "|"
  let matchedRaw := patterns.filter (fun p => pm (pyStrip p) content)
  let matchesCount := matchedRaw.length
  if 0 < matchesCount then
    some
      { techniqueId := row.technique
        techniqueName := row.name
        tactic := row.tactique
        description := row.description
        confidence := min ((matchesCount : ℚ) / (patterns.length : ℚ)) 1
        matchedPatterns := matchedRaw.map pyStrip
        matchCount := matchesCount
        totalPatterns := patterns.length }
  else none

/-- Descending-confidence ordering used to model
`matches.sort(key=lambda x: x['confidence'], reverse=True)`. -/
def confGE (a b : TechniqueMatch) : Prop := b.confidence ≤ a.confidence

instance : DecidableRel confGE := fun a b =>
  inferInstanceAs (Decidable (b.confidence ≤ a.confidence))

instance : IsTotal TechniqueMatch confGE :=
  ⟨fun a b => le_total b.confidence a.confidence⟩

instance : IsTrans TechniqueMatch confGE :=
  ⟨fun _ _ _ hab hbc => le_trans hbc hab⟩

/-- `MitreMapper.map_event`: collect one match per knowledge-base row
with at least one matching pattern, then sort by descending confidence.
CPython's `list.sort(..., reverse=True)` is a stable descending sort,
modelled by insertion sort under `confGE` (the run-statistics update of
`map_event` does not influence the returned list and is not modelled). -/
def mapEvent (pm : String → String → Bool) (db : List MitreRow) (event : Event) :
    List TechniqueMatch :=
  let content := fullContent event
  List.insertionSort confGE (db.filterMap (matchRow pm content))

/-- The fixed 14-stage canonical kill-chain order of `get_kill_chain`. -/
def killChainOrder : List String :=
  ["Reconnaissance", "Resource Development", "Initial Access", "Execution",
   "Persistence", "Privilege Escalation", "Defense Evasion", "Credential Access",
   "Discovery", "Lateral Movement", "Collection", "Command and Control",
   "Exfiltration", "Impact"]

/-- `MitreMapper.get_kill_chain`: tactics of the matches intersected
with the canonical order, returned in canonical order. -/
def getKillChain (techniques : List TechniqueMatch) : List String :=
  killChainOrder.filter (fun t => techniques.any (fun m => m.tactic == t))

/-! ## trust_agent.py -/

/-- A calibration sample appended by `add_calibration_sample`
(`int(ground_truth)` stored; predictions idealized as exact rationals
for the binning diagnostics). -/
structure CalSample where
  prediction : ℚ
  groundTruth : Bool
  timestamp : Option String := none
deriving DecidableEq

/-- Mutable state of a `TrustAgent` (constructor defaults
`temperature=1.5`, `threshold=0.7`; `max_calibration_samples = 100`). -/
structure TrustAgentState where
  temperature : ℝ := 1.5
  threshold : ℝ := 0.7
  calibrationData : List CalSample := []

/-- `np.clip(x, lo, hi)`. -/
noncomputable def clipR (x lo hi : ℝ) : ℝ := min (max x lo) hi

/-- The logistic function `1 / (1 + exp(-t))`. -/
noncomputable def logisticR (t : ℝ) : ℝ := 1 / (1 + Real.exp (-t))

/-- The logit `log(x / (1 - x))`. -/
noncomputable def logitR (x : ℝ) : ℝ := Real.log (x / (1 - x))

/-- The `epsilon = 1e-10` of `_apply_temperature_scaling`. -/
noncomputable def tsEps : ℝ := 1e-10

/-- `TrustAgent._apply_temperature_scaling`: clip the raw score into
`[eps, 1-eps]`, take the logit, divide by the temperature, map back
through the logistic function, and clip the result into `[0, 1]`. -/
noncomputable def applyTemperatureScaling (temperature rawScore : ℝ) : ℝ :=
  clipR (logisticR (logitR (clipR rawScore tsEps (1 - tsEps)) / temperature)) 0 1

/-- The decision-relevant part of the `analysis` dict built by
`calibrate_decision` (the echoed inputs/weights/temperature/threshold
entries are omitted). `should_alert` is a comparison of real scores,
kept as a proposition. -/
structure TrustDecision where
  rawScore : ℝ
  calibratedScore : ℝ
  shouldAlert : Prop
  decisionConfidence : ℝ

/-- `TrustAgent.calibrate_decision`, in explicit state-passing form: the
method reads `self.temperature` and `self.threshold` and returns
`(calibrated_score, analysis)`; the state component of the result is the
state of the agent after the call. -/
noncomputable def calibrateDecision (st : TrustAgentState)
    (llmConfidence anomalyScore : ℝ) (heuristicScore : ℝ) :
    (ℝ × TrustDecision) × TrustAgentState :=
  let rawScore := 0.4 * llmConfidence + 0.4 * anomalyScore + 0.2 * heuristicScore
  let calibratedScore := applyTemperatureScaling st.temperature rawScore
  let decisionConfidence := clipR (|calibratedScore - st.threshold| / 0.5) 0 1
  ((calibratedScore,
    { rawScore := rawScore
      calibratedScore := calibratedScore
      shouldAlert := calibratedScore ≥ st.threshold
      decisionConfidence := decisionConfidence }),
   st)

/-- Bin membership test of `_compute_ece` for bin `i` of 10:
`(predictions >= bin_lower) & (predictions < bin_upper)` with
boundaries `linspace(0, 1, 11)`. -/
def inBinCode (i : Nat) (p : ℚ) : Bool :=
  decide ((i : ℚ) / 10 ≤ p ∧ p < ((i : ℚ) + 1) / 10)

/-- `np.mean` of a list of rationals. -/
def pyMean (l : List ℚ) : ℚ := l.sum / (l.length : ℚ)

/-- Ground truth of a sample as the stored `int(ground_truth)`. -/
def gtVal (s : CalSample) : ℚ := if s.groundTruth then 1 else 0

/-- `TrustAgent._compute_ece` with the default `n_bins = 10`: sum over
non-empty bins of `(samples in bin / total) * |mean prediction - mean
ground truth|`. -/
def computeECE (samples : List CalSample) : ℚ :=
  ((List.range 10).map (fun i =>
    let inBin := samples.filter (fun s => inBinCode i s.prediction)
    if 0 < inBin.length then
      ((inBin.length : ℚ) / (samples.length : ℚ)) *
        |pyMean (inBin.map (fun s => s.prediction)) - pyMean (inBin.map gtVal)|
    else 0)).sum

/-- The ECE entry of `TrustAgent.compute_calibration_metrics`: `none`
models the `'Not enough calibration samples'` result returned for fewer
than 10 samples (the Brier/accuracy/confusion entries of the returned
dict are not modelled). -/
def computeCalibrationMetricsEce (st : TrustAgentState) : Option ℚ :=
  if st.calibrationData.length < 10 then none
  else some (computeECE st.calibrationData)

/-- Spec-side bin membership for C5, following the spec's words: 10
equal-width bins partitioning [0,1], each sample falling in exactly one
bin — so the last bin is the closed interval [0.9, 1]. -/
def specBinHit (i : Nat) (p : ℚ) : Bool :=
  if i = 9 then decide ((9 : ℚ) / 10 ≤ p ∧ p ≤ 1)
  else decide ((i : ℚ) / 10 ≤ p ∧ p < ((i : ℚ) + 1) / 10)

/-- Spec-side ECE for C5: same weighted sum, but over the partitioning
bins `specBinHit`. -/
def specECE (samples : List CalSample) : ℚ :=
  ((List.range 10).map (fun i =>
    let inBin := samples.filter (fun s => specBinHit i s.prediction)
    if 0 < inBin.length then
      ((inBin.length : ℚ) / (samples.length : ℚ)) *
        |pyMean (inBin.map (fun s => s.prediction)) - pyMean (inBin.map gtVal)|
    else 0)).sum

/-! ## xai_explainer.py -/

/-- Python `f"{x}"` of an optional string (`None` prints as "None"). -/
def pyShowOptStr : Option String → String
  | some s => s
  | none => "None"

/-- One recommendation dict of `_generate_recommendations`. -/
structure Recommendation where
  priority : String
  action : String
  description : String
  rationale : String
deriving DecidableEq

/-- `XAIExplainer._calculate_threat_level`. -/
def calculateThreatLevel (trustScore anomalyScore : ℚ) : String :=
  let maxScore := max trustScore anomalyScore
  if maxScore ≥ 0.9 then "CRITICAL"
  else if maxScore ≥ 0.7 then "HIGH"
  else if maxScore ≥ 0.5 then "MEDIUM"
  else "LOW"

/-- Spec-side threat level for C3: "purely a function of
max(trust_score, anomaly_score)" with the stated thresholds. -/
def threatLevelOf (s : ℚ) : String :=
  if s ≥ 0.9 then "CRITICAL"
  else if s ≥ 0.7 then "HIGH"
  else if s ≥ 0.5 then "MEDIUM"
  else "LOW"

/-- The threat-level-driven base recommendations of
`_generate_recommendations` (the `if/elif/else` chain on
`threat_level`). -/
def baseRecommendations (threatLevel : String) (event : Event) : List Recommendation :=
  if threatLevel = "CRITICAL" then
    [{ priority := "URGENT"
       action := "Bloquer immédiatement"
       description := "Bloquer l\x27IP " ++ pyShowOptStr event.srcIp ++ " au niveau du firewall"
       rationale := "Menace critique détectée avec haute confiance" },
     { priority := "HIGH"
       action := "Investigation approfondie"
       description := "Analyser les logs complets des dernières 24h pour cette IP"
       rationale := "Identifier l\x27étendue potentielle de la compromission" }]
  else if threatLevel = "HIGH" then
    [{ priority := "HIGH"
       action := "Surveillance accrue"
       description := "Monitorer activement l\x27IP " ++ pyShowOptStr event.srcIp
       rationale := "Activité suspecte nécessitant surveillance" },
     { priority := "MEDIUM"
       action := "Rate limiting"
       description := "Appliquer des limites de taux sur cette IP"
       rationale := "Prévenir l\x27escalade d\x27attaque" }]
  else if threatLevel = "MEDIUM" then
    [{ priority := "MEDIUM"
       action := "Enregistrer et surveiller"
       description := "Logger l\x27événement pour analyse de tendances"
       rationale := "Activité potentiellement suspecte" }]
  else
    [{ priority := "LOW"
       action := "Logging standard"
       description := "Conserver dans les logs pour référence"
       rationale := "Faible risque identifié" }]

/-- The Credential Access add-on recommendation. -/
def auditAccountsRec : Recommendation :=
  { priority := "HIGH"
    action := "Vérification des comptes"
    description := "Auditer les tentatives d\x27accès et réinitialiser les mots de passe compromis"
    rationale := "Tentative d\x27accès aux identifiants détectée" }

/-- The Initial Access add-on recommendation. -/
def inspectApplicationsRec : Recommendation :=
  { priority := "HIGH"
    action := "Inspection des applications"
    description := "Vérifier l\x27intégrité des applications exposées"
    rationale := "Tentative d\x27exploitation d\x27application détectée" }

/-- `XAIExplainer._generate_recommendations`: the base block keyed to
`_calculate_threat_level(trust_score, 0)` (anomaly score hard-coded to
0), then, when there are techniques, the two tactic-specific add-ons. -/
def generateRecommendations (trustScore : ℚ) (techniques : List TechniqueMatch)
    (event : Event) : List Recommendation :=
  let threatLevel := calculateThreatLevel trustScore 0
  let recommendations := baseRecommendations threatLevel event
  if techniques ≠ [] then
    let tactics := techniques.map (fun t => t.tactic)
    (recommendations ++
      (if tactics.contains "Credential Access" then [auditAccountsRec] else []) ++
      (if tactics.contains "Initial Access" then [inspectApplicationsRec] else []))
  else recommendations

/-- `XAIExplainer._extract_kill_chain` (same computation as
`MitreMapper.get_kill_chain`, duplicated in the source). -/
def extractKillChain (techniques : List TechniqueMatch) : List String :=
  killChainOrder.filter (fun t => techniques.any (fun m => m.tactic == t))

/-- The decision-relevant slice of the explanation dict built by
`XAIExplainer.explain`: the reported threat level
(`scores.threat_level`), the recommendations, the kill chain and the
event id. The LLM narrative, summary and decision-factor entries do not
feed back into these fields and are not modelled. -/
structure Explanation where
  eventId : String
  threatLevel : String
  recommendations : List Recommendation
  killChain : List String
deriving DecidableEq

/-- `XAIExplainer.explain` (decision-relevant fields). -/
def explain (event : Event) (mitreTechniques : List TechniqueMatch)
    (anomalyScore trustScore : ℚ) : Explanation :=
  { eventId := event.id.getD "unknown"
    threatLevel := calculateThreatLevel trustScore anomalyScore
    recommendations := generateRecommendations trustScore mitreTechniques event
    killChain := extractKillChain mitreTechniques }

/-- Environment used for concrete evaluations: every regex search
fails, every timestamp parse fails, and the clock reads 10:00 on a
Wednesday. -/
def cexEnv : ExtractEnv :=
  ⟨fun _ => none, ⟨10, 2, 0⟩, ⟨fun _ => false, fun _ => false, fun _ => none⟩⟩

/-! ## Theorems -/

/-- C1 (counterexample): on an event with an absent `timestamp`,
`extract` reports the wall-clock hour (here 10), not 0 — the code falls
back to `datetime.now()` instead of zeroing the temporal features. -/
theorem extract_absent_timestamp_counterexample :
    (({} : Event)).timestamp = none ∧
      (extract cexEnv initialExtractorState {}).1.temporal.hour ≠ 0 :=
  ⟨rfl, by decide⟩

/-- C1 (amended): for every event whose timestamp is a string that
`fromisoformat` cannot parse, `extract` returns
`hour = day_of_week = is_weekend = is_night = 0` (and is total, so it
never raises); when the timestamp is absent the four temporal features
are instead derived from the current wall-clock time. -/
theorem extract_temporal_amended (env : ExtractEnv) (st : FeatureExtractorState)
    (event : Event) :
    (∀ s, event.timestamp = some s → env.parseIso (s.replace "Z" "+00:00") = none →
      (extract env st event).1.temporal = ⟨0, 0, 0, 0⟩) ∧
    (event.timestamp = none →
      (extract env st event).1.temporal = temporalOfDateTime env.now) := by
  constructor
  · intro s hs hp
    simp [extract, extractTemporalFeatures, hs, hp]
  · intro h
    simp [extract, extractTemporalFeatures, h]

/-- C1 (witness): a concrete unparsable string timestamp yields the four
zeros. -/
theorem extract_temporal_amended_witness :
    (extract cexEnv initialExtractorState { timestamp := some "not-a-timestamp" }).1.temporal
      = ⟨0, 0, 0, 0⟩ :=
  (extract_temporal_amended cexEnv initialExtractorState
    { timestamp := some "not-a-timestamp" }).1 "not-a-timestamp" rfl rfl

/-- C2 (counterexample): `_is_private_ip` returns `True` on the
malformed string "10", which is not an IPv4 address, so malformed
strings do not always classify as non-private. -/
theorem isPrivateIp_counterexample :
    pyIsPrivateIp "10" = true ∧ ipv4Parse "10" = none := by
  constructor <;> decide

theorem pySpace_of_isDigit {c : Char} (h : c.isDigit = true) : pySpace c = false := by
  revert h
  simp only [Char.isDigit, pySpace, decide_eq_false_iff_not]
  intro h
  rintro (rfl | rfl | rfl | rfl | rfl | rfl) <;> simp_all

theorem dropWhile_pySpace_of_digits {l : List Char} (h : ∀ c ∈ l, c.isDigit = true) :
    l.dropWhile pySpace = l := by
  cases l with
  | nil => rfl
  | cons c rest =>
    rw [List.dropWhile_cons, pySpace_of_isDigit (h c (by simp))]
    simp

theorem pyDigits_cons (acc : Nat) (c : Char) (rest : List Char) :
    pyDigits acc (c :: rest) =
      if c.isDigit then pyDigits (acc * 10 + (c.toNat - 48)) rest
      else if c = '_' then
        match rest with
        | [] => none
        | c2 :: rest2 =>
          if c2.isDigit then pyDigits (acc * 10 + (c2.toNat - 48)) rest2 else none
      else none := by
  rw [pyDigits.eq_def]

theorem pyDigits_of_digits (l : List Char) (acc : Nat)
    (h : ∀ c ∈ l, c.isDigit = true) :
    pyDigits acc l = some (l.foldl (fun a c => a * 10 + (c.toNat - 48)) acc) := by
  induction l generalizing acc with
  | nil => rfl
  | cons c rest ih =>
    rw [pyDigits_cons, if_pos (h c (by simp)), List.foldl_cons]
    exact ih _ (fun x hx => h x (by simp [hx]))

theorem pyInt_of_digits (l : List Char) (hne : l ≠ [])
    (h : ∀ c ∈ l, c.isDigit = true) :
    pyIntCore l = some ((digitsVal l : Nat) : Int) := by
  cases l with
  | nil => exact absurd rfl hne
  | cons c rest =>
    have hc : c.isDigit = true := h c (by simp)
    have hplus : ¬ c = '+' := by rintro rfl; simp at hc
    have hminus : ¬ c = '-' := by rintro rfl; simp at hc
    rw [pyIntCore, if_neg hplus, if_neg hminus, pyNatCore, if_pos hc,
      pyDigits_of_digits rest _ (fun x hx => h x (by simp [hx]))]
    simp [digitsVal]

theorem pyInt_of_octetVal {l : List Char} {v : Nat} (h : octetVal l = some v) :
    pyInt l = some ((v : Nat) : Int) := by
  unfold octetVal at h
  split at h
  case isFalse => exact Option.noConfusion h
  case isTrue hcond =>
    obtain ⟨hne, hdig, _⟩ := hcond
    have hdig' : ∀ c ∈ l, c.isDigit = true := by
      intro c hc
      exact List.all_eq_true.mp hdig c hc
    have hv : digitsVal l = v := Option.some_inj.mp h
    unfold pyInt
    rw [dropWhile_pySpace_of_digits hdig']
    have hrev : ∀ c ∈ l.reverse, c.isDigit = true := by
      intro c hc
      exact hdig' c (List.mem_reverse.mp hc)
    rw [dropWhile_pySpace_of_digits hrev, List.reverse_reverse]
    rw [pyInt_of_digits l hne hdig', hv]

/-- C2 (amended): on every well-formed dotted-quad IPv4 string
(four non-empty decimal components, each at most 255),
`_is_private_ip` agrees exactly with RFC1918 membership
(10.0.0.0/8, 172.16.0.0/12, 192.168.0.0/16), and it is total, so it
never raises; but some malformed strings (such as "10") also classify
as private, so the "false for every malformed string" half of the claim
fails. -/
theorem isPrivateIp_amended (s : String) (a b c d : Nat)
    (h : ipv4Parse s = some (a, b, c, d)) :
    pyIsPrivateIp s = rfc1918 a b := by
  have hs : s ≠ "" := by
    rintro rfl
    rw [show ipv4Parse "" = none from rfl] at h
    exact Option.noConfusion h
  unfold pyIsPrivateIp
  rw [if_neg hs]
  unfold ipv4Parse at h
  rcases hp : splitOnChar '.' s.data with _ | ⟨sa, _ | ⟨sb, _ | ⟨sc, _ | ⟨sd, _ | ⟨se, tl⟩⟩⟩⟩⟩ <;>
    rw [hp] at h <;> try exact Option.noConfusion h
  have h' : (match octetVal sa, octetVal sb, octetVal sc, octetVal sd with
      | some va, some vb, some vc, some vd => some (va, vb, vc, vd)
      | _, _, _, _ => none) = some (a, b, c, d) := h
  clear h
  rcases ha : octetVal sa with _ | va <;> rw [ha] at h'
  all_goals rcases hb : octetVal sb with _ | vb <;> rw [hb] at h'
  all_goals rcases hc : octetVal sc with _ | vc <;> rw [hc] at h'
  all_goals rcases hd : octetVal sd with _ | vd <;> rw [hd] at h'
  all_goals try exact Option.noConfusion h'
  simp only [Option.some.injEq, Prod.mk.injEq] at h'
  obtain ⟨rfl, rfl, rfl, rfl⟩ := h'
  simp only [List.mapM_cons, List.mapM_nil, pyInt_of_octetVal ha, pyInt_of_octetVal hb,
    pyInt_of_octetVal hc, pyInt_of_octetVal hd, Option.bind_eq_bind, Option.some_bind,
    Option.pure_def]
  split_ifs with h10 h172 h192
  · have hva : va = 10 := by exact_mod_cast h10
    subst hva
    simp [rfc1918]
  · have hva : va = 172 := by exact_mod_cast h172
    subst hva
    simp only [rfc1918, decide_eq_decide]
    norm_num
  · have hva : va = 192 := by exact_mod_cast h192
    subst hva
    simp only [rfc1918, decide_eq_decide]
    norm_num
    omega
  · symm
    simp only [rfc1918, decide_eq_false_iff_not]
    push_cast at h10 h172 h192
    omega

/-- C2 (witness): the amended theorem evaluated at "192.168.0.1". -/
theorem isPrivateIp_amended_witness :
    ipv4Parse "192.168.0.1" = some (192, 168, 0, 1) ∧
      pyIsPrivateIp "192.168.0.1" = rfc1918 192 168 :=
  ⟨by decide, isPrivateIp_amended "192.168.0.1" 192 168 0 1 (by decide)⟩

/-- C3 (counterexample): with trust_score = 0.1 and anomaly_score =
0.95 the reported threat level is CRITICAL, yet none of the returned
recommendations is the immediate-block action the claim requires for
CRITICAL: `_generate_recommendations` recomputes the level as
`_calculate_threat_level(trust_score, 0)`, ignoring the anomaly score,
and emits the LOW block. -/
theorem explain_recommendations_counterexample :
    (explain {} [] (95 / 100) (1 / 10)).threatLevel = "CRITICAL" ∧
      ((explain {} [] (95 / 100) (1 / 10)).recommendations.all
        (fun r => r.action != "Bloquer immédiatement")) = true := by
  constructor
  · show calculateThreatLevel (1 / 10) (95 / 100) = "CRITICAL"
    norm_num [calculateThreatLevel, max_def]
  · show (generateRecommendations (1 / 10) [] {}).all _ = true
    have h : calculateThreatLevel ((10 : ℚ)⁻¹) 0 = "LOW" := by
      norm_num [calculateThreatLevel, max_def]
    simp [generateRecommendations, h, baseRecommendations]

theorem auditRec_not_mem_base (lvl : String) (event : Event) :
    auditAccountsRec ∉ baseRecommendations lvl event := by
  unfold baseRecommendations
  split_ifs <;> simp [auditAccountsRec, Recommendation.mk.injEq]

theorem inspectRec_not_mem_base (lvl : String) (event : Event) :
    inspectApplicationsRec ∉ baseRecommendations lvl event := by
  unfold baseRecommendations
  split_ifs <;> simp [inspectApplicationsRec, Recommendation.mk.injEq]

theorem generateRecommendations_eq (trust : ℚ) (techs : List TechniqueMatch)
    (event : Event) :
    generateRecommendations trust techs event =
      baseRecommendations (calculateThreatLevel trust 0) event ++
        (if (techs.map (fun t => t.tactic)).contains "Credential Access" then
          [auditAccountsRec] else []) ++
        (if (techs.map (fun t => t.tactic)).contains "Initial Access" then
          [inspectApplicationsRec] else []) := by
  unfold generateRecommendations
  by_cases h : techs = []
  · subst h
    simp
  · rw [if_pos h]

/-- C3 (amended): the reported threat level is a pure function of
`max(trust_score, anomaly_score)` with the stated thresholds, but the
recommendations are keyed to the threat level recomputed from the trust
score alone (`_calculate_threat_level(trust_score, 0)`), which can
differ from the reported level; the base block for that
trust-score-only level is followed by the account-audit add-on exactly
when some matched technique has tactic Credential Access and the
application-inspection add-on exactly when some has tactic Initial
Access. -/
theorem explain_spec (event : Event) (techs : List TechniqueMatch)
    (anomaly trust : ℚ) (h0a : 0 ≤ anomaly) (h1a : anomaly ≤ 1)
    (h0t : 0 ≤ trust) (h1t : trust ≤ 1) :
    (explain event techs anomaly trust).threatLevel = threatLevelOf (max trust anomaly) ∧
    (explain event techs anomaly trust).recommendations =
      baseRecommendations (calculateThreatLevel trust 0) event ++
        (if (techs.map (fun t => t.tactic)).contains "Credential Access" then
          [auditAccountsRec] else []) ++
        (if (techs.map (fun t => t.tactic)).contains "Initial Access" then
          [inspectApplicationsRec] else []) ∧
    (auditAccountsRec ∈ (explain event techs anomaly trust).recommendations ↔
      ∃ m ∈ techs, m.tactic = "Credential Access") ∧
    (inspectApplicationsRec ∈ (explain event techs anomaly trust).recommendations ↔
      ∃ m ∈ techs, m.tactic = "Initial Access") := by
  refine ⟨rfl, generateRecommendations_eq trust techs event, ?_, ?_⟩
  · show auditAccountsRec ∈ generateRecommendations trust techs event ↔ _
    rw [generateRecommendations_eq trust techs event]
    simp only [List.mem_append, List.append_assoc]
    constructor
    · rintro (hbase | hA | hB)
      · exact absurd hbase (auditRec_not_mem_base _ _)
      · revert hA
        split_ifs with hc
        · intro _
          have : "Credential Access" ∈ techs.map (fun t => t.tactic) :=
            List.elem_iff.mp hc
          obtain ⟨m, hm, hmt⟩ := List.mem_map.mp this
          exact ⟨m, hm, hmt⟩
        · intro hA
          exact absurd hA (by simp)
      · revert hB
        split_ifs with hc
        · intro hB
          have : auditAccountsRec = inspectApplicationsRec := by
            simpa using hB
          exact absurd this (by decide)
        · intro hB
          exact absurd hB (by simp)
    · rintro ⟨m, hm, hmt⟩
      have hc : (techs.map (fun t => t.tactic)).contains "Credential Access" = true :=
        List.elem_iff.mpr (List.mem_map.mpr ⟨m, hm, hmt⟩)
      rw [hc]
      simp
  · show inspectApplicationsRec ∈ generateRecommendations trust techs event ↔ _
    rw [generateRecommendations_eq trust techs event]
    simp only [List.mem_append, List.append_assoc]
    constructor
    · rintro (hbase | hA | hB)
      · exact absurd hbase (inspectRec_not_mem_base _ _)
      · revert hA
        split_ifs with hc
        · intro hA
          have : inspectApplicationsRec = auditAccountsRec := by
            simpa using hA
          exact absurd this (by decide)
        · intro hA
          exact absurd hA (by simp)
      · revert hB
        split_ifs with hc
        · intro _
          have : "Initial Access" ∈ techs.map (fun t => t.tactic) :=
            List.elem_iff.mp hc
          obtain ⟨m, hm, hmt⟩ := List.mem_map.mp this
          exact ⟨m, hm, hmt⟩
        · intro hB
          exact absurd hB (by simp)
    · rintro ⟨m, hm, hmt⟩
      have hc : (techs.map (fun t => t.tactic)).contains "Initial Access" = true :=
        List.elem_iff.mpr (List.mem_map.mpr ⟨m, hm, hmt⟩)
      rw [hc]
      simp

/-- C3 (witness): the amended theorem evaluated at a concrete
Credential Access match with trust = anomaly = 0.95. -/
theorem explain_spec_witness :
    (explain {} [⟨"T1110", "Brute Force", "Credential Access", "", 1, ["failed password"], 1, 1⟩]
        (95 / 100) (95 / 100)).threatLevel = threatLevelOf (max (95 / 100) (95 / 100)) ∧
    (explain {} [⟨"T1110", "Brute Force", "Credential Access", "", 1, ["failed password"], 1, 1⟩]
        (95 / 100) (95 / 100)).recommendations =
      baseRecommendations (calculateThreatLevel (95 / 100) 0) {} ++
        (if (([⟨"T1110", "Brute Force", "Credential Access", "", 1, ["failed password"], 1, 1⟩] :
            List TechniqueMatch).map (fun t => t.tactic)).contains "Credential Access" then
          [auditAccountsRec] else []) ++
        (if (([⟨"T1110", "Brute Force", "Credential Access", "", 1, ["failed password"], 1, 1⟩] :
            List TechniqueMatch).map (fun t => t.tactic)).contains "Initial Access" then
          [inspectApplicationsRec] else []) ∧
    (auditAccountsRec ∈ (explain {} [⟨"T1110", "Brute Force", "Credential Access", "", 1,
        ["failed password"], 1, 1⟩] (95 / 100) (95 / 100)).recommendations ↔
      ∃ m ∈ ([⟨"T1110", "Brute Force", "Credential Access", "", 1, ["failed password"], 1, 1⟩] :
        List TechniqueMatch), m.tactic = "Credential Access") ∧
    (inspectApplicationsRec ∈ (explain {} [⟨"T1110", "Brute Force", "Credential Access", "", 1,
        ["failed password"], 1, 1⟩] (95 / 100) (95 / 100)).recommendations ↔
      ∃ m ∈ ([⟨"T1110", "Brute Force", "Credential Access", "", 1, ["failed password"], 1, 1⟩] :
        List TechniqueMatch), m.tactic = "Initial Access") :=
  explain_spec {} [⟨"T1110", "Brute Force", "Credential Access", "", 1, ["failed password"], 1, 1⟩]
    (95 / 100) (95 / 100) (by norm_num) (by norm_num) (by norm_num) (by norm_num)

theorem clipR_of_mem {x lo hi : ℝ} (hlo : lo ≤ x) (hhi : x ≤ hi) : clipR x lo hi = x := by
  unfold clipR
  rw [max_eq_left hlo, min_eq_left hhi]

theorem logisticR_pos (t : ℝ) : 0 < logisticR t := by
  unfold logisticR
  positivity

theorem logisticR_lt_one (t : ℝ) : logisticR t < 1 := by
  unfold logisticR
  rw [div_lt_one (by positivity)]
  linarith [Real.exp_pos (-t)]

theorem clipR_logisticR (t : ℝ) : clipR (logisticR t) 0 1 = logisticR t :=
  clipR_of_mem (le_of_lt (logisticR_pos t)) (le_of_lt (logisticR_lt_one t))

theorem logisticR_strictMono : StrictMono logisticR := by
  intro u v h
  unfold logisticR
  rw [div_lt_div_iff (by positivity) (by positivity)]
  have hexp : Real.exp (-v) < Real.exp (-u) := Real.exp_lt_exp.mpr (by linarith)
  linarith

theorem logisticR_zero : logisticR 0 = 1 / 2 := by
  unfold logisticR
  rw [neg_zero, Real.exp_zero]
  norm_num

theorem logisticR_neg (t : ℝ) : logisticR (-t) = 1 - logisticR t := by
  unfold logisticR
  rw [neg_neg]
  have h1 : (0 : ℝ) < 1 + Real.exp (-t) := by positivity
  have h2 : (0 : ℝ) < 1 + Real.exp t := by positivity
  have he : Real.exp t * Real.exp (-t) = 1 := by
    rw [← Real.exp_add]
    simp
  field_simp
  nlinarith [he]

theorem logisticR_logit {x : ℝ} (h0 : 0 < x) (h1 : x < 1) :
    logisticR (logitR x) = x := by
  unfold logisticR logitR
  have hx1 : (0 : ℝ) < 1 - x := by linarith
  rw [← Real.log_inv, Real.exp_log (by positivity), inv_div]
  field_simp

theorem abs_logisticR_sub_half (t : ℝ) :
    |logisticR t - 1 / 2| = logisticR |t| - 1 / 2 := by
  rcases le_or_lt 0 t with h | h
  · have hmono : (1 : ℝ) / 2 ≤ logisticR t := by
      have := logisticR_strictMono.monotone h
      rwa [logisticR_zero] at this
    rw [abs_of_nonneg h, abs_of_nonneg (by linarith)]
  · have hlt : logisticR t < 1 / 2 := by
      have := logisticR_strictMono h
      rwa [logisticR_zero] at this
    have hneg := logisticR_neg t
    rw [abs_of_neg h, abs_of_neg (by linarith : logisticR t - 1 / 2 < 0)]
    linarith

theorem logitR_ne_zero {x : ℝ} (h0 : 0 < x) (h1 : x < 1) (hx : x ≠ 1 / 2) :
    logitR x ≠ 0 := by
  unfold logitR
  intro h
  have hx1 : (0 : ℝ) < 1 - x := by linarith
  rcases Real.log_eq_zero.mp h with h' | h' | h'
  · rw [div_eq_zero_iff] at h'
    rcases h' with h' | h'
    · exact absurd h' (ne_of_gt h0)
    · linarith
  · rw [div_eq_one_iff_eq (by linarith : (1 : ℝ) - x ≠ 0)] at h'
    exact hx (by linarith)
  · have hpos : 0 < x / (1 - x) := by positivity
    linarith [h' ▸ hpos]

/-- C10: `calibrate_decision` leaves the Trust Calibrator state
unchanged: temperature, threshold and the calibration buffer after the
call are those before it; in particular per-event scoring never appends
a calibration sample. -/
theorem calibrateDecision_frame (st : TrustAgentState) (l a h : ℝ) :
    (calibrateDecision st l a h).2.temperature = st.temperature ∧
    (calibrateDecision st l a h).2.threshold = st.threshold ∧
    (calibrateDecision st l a h).2.calibrationData = st.calibrationData :=
  ⟨rfl, rfl, rfl⟩

/-- C4: for inputs in [0,1], `calibrate_decision` computes the weighted
raw score `0.4*llm + 0.4*anomaly + 0.2*heuristic`, the calibrated score
`logistic(logit(clip(raw, eps, 1-eps)) / temperature)` (the code also
clips the logistic output into [0,1], a no-op), reports
`should_alert = (calibrated_score >= threshold)` and
`decision_confidence = clip(|calibrated_score - threshold| / 0.5, 0, 1)`. -/
theorem calibrateDecision_formula (st : TrustAgentState) (l a h : ℝ)
    (hl0 : 0 ≤ l) (hl1 : l ≤ 1) (ha0 : 0 ≤ a) (ha1 : a ≤ 1)
    (hh0 : 0 ≤ h) (hh1 : h ≤ 1) :
    (calibrateDecision st l a h).1.2.rawScore = 0.4 * l + 0.4 * a + 0.2 * h ∧
    (calibrateDecision st l a h).1.2.calibratedScore =
      logisticR (logitR (clipR (0.4 * l + 0.4 * a + 0.2 * h) tsEps (1 - tsEps)) /
        st.temperature) ∧
    ((calibrateDecision st l a h).1.2.shouldAlert ↔
      (calibrateDecision st l a h).1.2.calibratedScore ≥ st.threshold) ∧
    (calibrateDecision st l a h).1.2.decisionConfidence =
      clipR (|(calibrateDecision st l a h).1.2.calibratedScore - st.threshold| / 0.5) 0 1 := by
  refine ⟨rfl, ?_, Iff.rfl, rfl⟩
  show applyTemperatureScaling st.temperature (0.4 * l + 0.4 * a + 0.2 * h) = _
  unfold applyTemperatureScaling
  rw [clipR_logisticR]

/-- C4 (witness): the formula theorem at llm = anomaly = heuristic = 1/2
on a default-constructed agent. -/
theorem calibrateDecision_formula_witness :
    (calibrateDecision {} (1 / 2) (1 / 2) (1 / 2)).1.2.rawScore =
      0.4 * (1 / 2) + 0.4 * (1 / 2) + 0.2 * (1 / 2) ∧
    (calibrateDecision {} (1 / 2) (1 / 2) (1 / 2)).1.2.calibratedScore =
      logisticR (logitR (clipR (0.4 * (1 / 2) + 0.4 * (1 / 2) + 0.2 * (1 / 2))
        tsEps (1 - tsEps)) / ({} : TrustAgentState).temperature) ∧
    ((calibrateDecision {} (1 / 2) (1 / 2) (1 / 2)).1.2.shouldAlert ↔
      (calibrateDecision {} (1 / 2) (1 / 2) (1 / 2)).1.2.calibratedScore ≥
        ({} : TrustAgentState).threshold) ∧
    (calibrateDecision {} (1 / 2) (1 / 2) (1 / 2)).1.2.decisionConfidence =
      clipR (|(calibrateDecision {} (1 / 2) (1 / 2) (1 / 2)).1.2.calibratedScore -
        ({} : TrustAgentState).threshold| / 0.5) 0 1 :=
  calibrateDecision_formula {} (1 / 2) (1 / 2) (1 / 2) (by norm_num) (by norm_num)
    (by norm_num) (by norm_num) (by norm_num) (by norm_num)

/-- C6 (counterexample): at x = 0 with temperature T = 1/2 < 1 the
temperature-scaled value is not strictly farther from 1/2 than x: the
epsilon clip moves 0 to eps first, and the result lands strictly inside
(0, 1), hence strictly closer to 1/2 than x = 0 was. -/
theorem temperatureScaling_counterexample :
    ¬ (|applyTemperatureScaling (1 / 2) 0 - 1 / 2| > |(0 : ℝ) - 1 / 2|) := by
  intro habs
  rw [show |(0 : ℝ) - 1 / 2| = 1 / 2 by norm_num] at habs
  unfold applyTemperatureScaling at habs
  rw [clipR_logisticR] at habs
  have h1 := logisticR_pos (logitR (clipR 0 tsEps (1 - tsEps)) / (1 / 2))
  have h2 := logisticR_lt_one (logitR (clipR 0 tsEps (1 - tsEps)) / (1 / 2))
  have habs2 : |logisticR (logitR (clipR 0 tsEps (1 - tsEps)) / (1 / 2)) - 1 / 2| < 1 / 2 :=
    abs_lt.mpr ⟨by linarith, by linarith⟩
  linarith

/-- C6 (amended): for x in [eps, 1-eps] (where the epsilon clip is the
identity) with x different from 1/2, the temperature-scaling map yields
a value strictly closer to 1/2 than x when T > 1, and strictly farther
when 0 < T < 1; at the clipped extremes (x < eps or x > 1-eps, e.g.
x = 0) the T < 1 direction fails. -/
theorem temperatureScaling_amended (T x : ℝ) (heL : tsEps ≤ x) (heR : x ≤ 1 - tsEps)
    (hhalf : x ≠ 1 / 2) :
    (1 < T → |applyTemperatureScaling T x - 1 / 2| < |x - 1 / 2|) ∧
    (0 < T → T < 1 → |x - 1 / 2| < |applyTemperatureScaling T x - 1 / 2|) := by
  have heps : (0 : ℝ) < tsEps := by norm_num [tsEps]
  have heps1 : tsEps < 1 / 2 := by norm_num [tsEps]
  have hx0 : 0 < x := lt_of_lt_of_le heps heL
  have hx1 : x < 1 := lt_of_le_of_lt heR (by norm_num [tsEps])
  have hclip : clipR x tsEps (1 - tsEps) = x := clipR_of_mem heL heR
  have hlx : logisticR (logitR x) = x := logisticR_logit hx0 hx1
  have hl0 : logitR x ≠ 0 := logitR_ne_zero hx0 hx1 hhalf
  have hats : ∀ u : ℝ, applyTemperatureScaling u x = logisticR (logitR x / u) := by
    intro u
    unfold applyTemperatureScaling
    rw [hclip, clipR_logisticR]
  constructor
  · intro hT
    rw [hats]
    calc |logisticR (logitR x / T) - 1 / 2|
        = logisticR |logitR x / T| - 1 / 2 := abs_logisticR_sub_half _
      _ < logisticR |logitR x| - 1 / 2 := by
          have habs : |logitR x / T| < |logitR x| := by
            rw [abs_div, abs_of_pos (by linarith : (0 : ℝ) < T)]
            exact div_lt_self (abs_pos.mpr hl0) hT
          linarith [logisticR_strictMono habs]
      _ = |logisticR (logitR x) - 1 / 2| := (abs_logisticR_sub_half _).symm
      _ = |x - 1 / 2| := by rw [hlx]
  · intro hT0 hT1
    rw [hats]
    calc |x - 1 / 2| = |logisticR (logitR x) - 1 / 2| := by rw [hlx]
      _ = logisticR |logitR x| - 1 / 2 := abs_logisticR_sub_half _
      _ < logisticR |logitR x / T| - 1 / 2 := by
          have habs : |logitR x| < |logitR x / T| := by
            rw [abs_div, abs_of_pos hT0, lt_div_iff hT0]
            exact mul_lt_of_lt_one_right (abs_pos.mpr hl0) hT1
          linarith [logisticR_strictMono habs]
      _ = |logisticR (logitR x / T) - 1 / 2| := (abs_logisticR_sub_half _).symm

/-- C6 (witness): the amended theorem at x = 1/4, T = 2. -/
theorem temperatureScaling_amended_witness :
    (1 < (2 : ℝ) → |applyTemperatureScaling 2 (1 / 4) - 1 / 2| < |(1 : ℝ) / 4 - 1 / 2|) ∧
    (0 < (2 : ℝ) → (2 : ℝ) < 1 → |(1 : ℝ) / 4 - 1 / 2| < |applyTemperatureScaling 2 (1 / 4) - 1 / 2|) :=
  temperatureScaling_amended 2 (1 / 4) (by norm_num [tsEps]) (by norm_num [tsEps])
    (by norm_num)

/-- C5 (counterexample): a buffer of 10 samples, each with prediction
exactly 1.0 and ground truth 0, has reported ECE 0 — every code bin is
the half-open interval [i/10, (i+1)/10), so a prediction of 1.0 falls
in no bin — while the claimed partition formula (last bin closed)
gives 1. -/
theorem computeEce_counterexample :
    computeCalibrationMetricsEce
        { temperature := 1.5, threshold := 0.7,
          calibrationData := List.replicate 10 ⟨1, false, none⟩ } = some 0 ∧
      specECE (List.replicate 10 ⟨1, false, none⟩) = 1 := by
  constructor
  · rw [computeCalibrationMetricsEce]
    norm_num [computeECE, inBinCode, pyMean, gtVal, List.range_succ,
      List.filter_cons, List.replicate]
  · norm_num [specECE, specBinHit, pyMean, gtVal, List.range_succ,
      List.filter_cons, List.replicate]

/-- C5 (amended): for every buffer of at least 10 samples whose
predictions are all strictly below 1, the reported ECE equals the sum
over the 10 equal-width bins partitioning [0,1] (each such sample
falling in exactly one bin) of (bin count / total) times |mean
prediction - mean ground truth|, non-empty bins only; a sample with
prediction exactly 1.0 falls in no code bin and is silently dropped
from the sum, which is where the claim as stated fails. -/
theorem computeEce_amended (st : TrustAgentState)
    (h10 : 10 ≤ st.calibrationData.length)
    (hlt : ∀ s ∈ st.calibrationData, s.prediction < 1) :
    computeCalibrationMetricsEce st = some (specECE st.calibrationData) := by
  unfold computeCalibrationMetricsEce
  rw [if_neg (by omega)]
  congr 1
  unfold computeECE specECE
  congr 1
  apply List.map_congr_left
  intro i hi
  have hfilter : st.calibrationData.filter (fun s => inBinCode i s.prediction)
      = st.calibrationData.filter (fun s => specBinHit i s.prediction) := by
    apply List.filter_congr'
    intro s hs
    by_cases h9 : i = 9
    · subst h9
      unfold inBinCode specBinHit
      rw [if_pos rfl, decide_eq_decide]
      have hp : s.prediction < 1 := hlt s hs
      have h101 : (((9 : Nat) : ℚ) + 1) / 10 = 1 := by norm_num
      constructor
      · rintro ⟨hA, hB⟩
        exact ⟨hA, by linarith⟩
      · rintro ⟨hA, _⟩
        exact ⟨hA, by rw [h101]; exact hp⟩
    · unfold inBinCode specBinHit
      rw [if_neg h9]
  rw [hfilter]

/-- C5 (witness): the amended theorem on a buffer of ten samples at
prediction 1/2. -/
theorem computeEce_amended_witness :
    computeCalibrationMetricsEce
        { temperature := 1.5, threshold := 0.7,
          calibrationData := List.replicate 10 ⟨1 / 2, true, none⟩ } =
      some (specECE (List.replicate 10 ⟨1 / 2, true, none⟩)) :=
  computeEce_amended
    { temperature := 1.5, threshold := 0.7,
      calibrationData := List.replicate 10 ⟨1 / 2, true, none⟩ }
    (by simp)
    (by
      intro s hs
      have h := List.eq_of_mem_replicate hs
      subst h
      norm_num)

theorem filter_orderedInsert_conf (q : ℚ) (x : TechniqueMatch) (l : List TechniqueMatch) :
    (l.orderedInsert confGE x).filter (fun m => decide (m.confidence = q))
      = if x.confidence = q then
          x :: l.filter (fun m => decide (m.confidence = q))
        else l.filter (fun m => decide (m.confidence = q)) := by
  induction l with
  | nil =>
    by_cases hx : x.confidence = q
    · simp [List.orderedInsert, List.filter, hx]
    · simp [List.orderedInsert, List.filter, hx]
  | cons b t ih =>
    rw [List.orderedInsert]
    by_cases hxb : confGE x b
    · rw [if_pos hxb]
      by_cases hx : x.confidence = q
      · simp [List.filter_cons, hx]
      · simp [List.filter_cons, hx]
    · rw [if_neg hxb]
      have hbx : x.confidence < b.confidence := not_le.mp hxb
      by_cases hx : x.confidence = q
      · have hb : ¬ (b.confidence = q) := by
          intro hbq
          rw [hx] at hbx
          rw [hbq] at hbx
          exact lt_irrefl q hbx
        simp [List.filter_cons, hb, hx, ih]
      · simp [List.filter_cons, ih, hx]

theorem filter_insertionSort_conf (q : ℚ) (l : List TechniqueMatch) :
    (List.insertionSort confGE l).filter (fun m => decide (m.confidence = q))
      = l.filter (fun m => decide (m.confidence = q)) := by
  induction l with
  | nil => rfl
  | cons b t ih =>
    rw [List.insertionSort, filter_orderedInsert_conf, List.filter_cons]
    by_cases hb : b.confidence = q
    · rw [if_pos hb, ih]
      simp [hb]
    · rw [if_neg hb, ih]
      simp [hb]

/-- C7: for every pattern matcher, knowledge base and event, the list
returned by `map_event` is a permutation of the per-row matches in
knowledge-base order; it is sorted by non-increasing (descending)
confidence; equal-confidence matches retain knowledge-base iteration
order (the filter at every confidence value is unchanged by the sort,
i.e. the sort is stable); a row is emitted iff at least one of its
stripped patterns matches the lower-cased message-plus-event-type
string; and every emitted confidence equals
matched-count / total-patterns and lies in (0, 1]. -/
theorem mapEvent_spec (pm : String → String → Bool) (db : List MitreRow) (event : Event) :
    (mapEvent pm db event).Perm (db.filterMap (matchRow pm (fullContent event))) ∧
    (mapEvent pm db event).Sorted confGE ∧
    (∀ q : ℚ, (mapEvent pm db event).filter (fun m => decide (m.confidence = q))
      = (db.filterMap (matchRow pm (fullContent event))).filter
          (fun m => decide (m.confidence = q))) ∧
    (∀ row : MitreRow, (matchRow pm (fullContent event) row).isSome ↔
      ∃ p ∈ row.patterns.splitOn "|", pm (pyStrip p) (fullContent event) = true) ∧
    (∀ m ∈ mapEvent pm db event,
      m.confidence = (m.matchCount : ℚ) / (m.totalPatterns : ℚ) ∧
        0 < m.confidence ∧ m.confidence ≤ 1) := by
  refine ⟨List.perm_insertionSort confGE _, List.sorted_insertionSort confGE _,
    fun q => filter_insertionSort_conf q _, ?_, ?_⟩
  · intro row
    unfold matchRow
    by_cases h : 0 < ((row.patterns.splitOn "|").filter
        (fun p => pm (pyStrip p) (fullContent event))).length
    · rw [if_pos h]
      simp only [Option.isSome_some, true_iff]
      have hne : (row.patterns.splitOn "|").filter
          (fun p => pm (pyStrip p) (fullContent event)) ≠ [] := by
        intro hnil
        rw [hnil] at h
        exact lt_irrefl 0 h
      obtain ⟨p, hp⟩ := List.exists_mem_of_ne_nil _ hne
      obtain ⟨hpl, hpm⟩ := List.mem_filter.mp hp
      exact ⟨p, hpl, hpm⟩
    · rw [if_neg h]
      simp only [Option.isSome_none, Bool.false_eq_true, false_iff]
      rintro ⟨p, hp, hmatch⟩
      apply h
      have hmem : p ∈ (row.patterns.splitOn "|").filter
          (fun p => pm (pyStrip p) (fullContent event)) :=
        List.mem_filter.mpr ⟨hp, hmatch⟩
      exact List.length_pos.mpr (List.ne_nil_of_mem hmem)
  · intro m hm
    have hm2 : m ∈ db.filterMap (matchRow pm (fullContent event)) :=
      ((List.perm_insertionSort confGE _).mem_iff).mp hm
    obtain ⟨row, hrow, hsome⟩ := List.mem_filterMap.mp hm2
    unfold matchRow at hsome
    by_cases h : 0 < ((row.patterns.splitOn "|").filter
        (fun p => pm (pyStrip p) (fullContent event))).length
    case neg =>
      rw [if_neg h] at hsome
      exact Option.noConfusion hsome
    rw [if_pos h] at hsome
    have hm3 := (Option.some_inj.mp hsome).symm
    subst hm3
    have hct : ((row.patterns.splitOn "|").filter
          (fun p => pm (pyStrip p) (fullContent event))).length ≤
        (row.patterns.splitOn "|").length := List.length_filter_le _ _
    have htpos : 0 < (row.patterns.splitOn "|").length := lt_of_lt_of_le h hct
    have hc0 : (0 : ℚ) < (((row.patterns.splitOn "|").filter
        (fun p => pm (pyStrip p) (fullContent event))).length : ℚ) := by
      exact_mod_cast h
    have ht0 : (0 : ℚ) < ((row.patterns.splitOn "|").length : ℚ) := by
      exact_mod_cast htpos
    have hle1 : (((row.patterns.splitOn "|").filter
          (fun p => pm (pyStrip p) (fullContent event))).length : ℚ) /
        ((row.patterns.splitOn "|").length : ℚ) ≤ 1 := by
      rw [div_le_one ht0]
      exact_mod_cast hct
    refine ⟨min_eq_left hle1, ?_, min_le_right _ _⟩
    rw [min_eq_left hle1]
    positivity

/-- C8 (counterexample): a match whose tactic is not one of the 14
canonical stage names is dropped entirely: the kill chain for it is
empty, so the output does not contain exactly the distinct tactics of
the input. -/
theorem getKillChain_counterexample :
    (⟨"T9999", "Custom", "Umbrella Tactic", "", 1, [], 1, 1⟩ : TechniqueMatch).tactic ∈
      ([⟨"T9999", "Custom", "Umbrella Tactic", "", 1, [], 1, 1⟩] : List TechniqueMatch).map
        (fun m => m.tactic) ∧
    (⟨"T9999", "Custom", "Umbrella Tactic", "", 1, [], 1, 1⟩ : TechniqueMatch).tactic ∉
      getKillChain [⟨"T9999", "Custom", "Umbrella Tactic", "", 1, [], 1, 1⟩] := by
  constructor
  · simp
  · decide

/-- C8 (amended): for every list of matches, `get_kill_chain` returns a
duplicate-free subsequence of the fixed 14-stage canonical order; when
additionally every input tactic is one of the canonical stage names, it
contains exactly the distinct tactics present in the input matches (a
non-canonical tactic string is silently dropped, which is where the
claim as stated fails). -/
theorem getKillChain_spec (ms : List TechniqueMatch) :
    (getKillChain ms).Sublist killChainOrder ∧
    (getKillChain ms).Nodup ∧
    ((∀ m ∈ ms, m.tactic ∈ killChainOrder) →
      ∀ t, t ∈ getKillChain ms ↔ ∃ m ∈ ms, m.tactic = t) := by
  refine ⟨List.filter_sublist _, List.Nodup.filter _ (by decide), ?_⟩
  intro h t
  unfold getKillChain
  rw [List.mem_filter]
  constructor
  · rintro ⟨-, hany⟩
    obtain ⟨m, hm, hbeq⟩ := List.any_eq_true.mp hany
    exact ⟨m, hm, by simpa using hbeq⟩
  · rintro ⟨m, hm, rfl⟩
    exact ⟨h m hm, List.any_eq_true.mpr ⟨m, hm, by simp⟩⟩

/-- C8 (witness): the amended theorem on a single Credential Access
match, with the all-canonical-tactics hypothesis of the exact-contents
clause discharged concretely. -/
theorem getKillChain_spec_witness :
    (getKillChain [⟨"T1110", "Brute Force", "Credential Access", "", 1, [], 1, 1⟩]).Sublist
      killChainOrder ∧
    (getKillChain [⟨"T1110", "Brute Force", "Credential Access", "", 1, [], 1, 1⟩]).Nodup ∧
    (∀ t, t ∈ getKillChain [⟨"T1110", "Brute Force", "Credential Access", "", 1, [], 1, 1⟩] ↔
      ∃ m ∈ ([⟨"T1110", "Brute Force", "Credential Access", "", 1, [], 1, 1⟩] :
        List TechniqueMatch), m.tactic = t) :=
  ⟨(getKillChain_spec [⟨"T1110", "Brute Force", "Credential Access", "", 1, [], 1, 1⟩]).1,
   (getKillChain_spec [⟨"T1110", "Brute Force", "Credential Access", "", 1, [], 1, 1⟩]).2.1,
   (getKillChain_spec [⟨"T1110", "Brute Force", "Credential Access", "", 1, [], 1, 1⟩]).2.2
     (by decide)⟩

theorem extractAll_length (env : ExtractEnv) (st : FeatureExtractorState)
    (evs : List Event) : (extractAll env st evs).length = evs.length := by
  induction evs generalizing st with
  | nil => rfl
  | cons e rest ih => simp [extractAll, ih]

theorem updateHistory_small (st : FeatureExtractorState) (e : Event)
    (h : st.eventHistory.length < maxHistory) :
    (updateHistory st e).eventHistory = st.eventHistory ++ [e] := by
  show (if (st.eventHistory ++ [e]).length > maxHistory then
      pyTakeLast maxHistory (st.eventHistory ++ [e])
    else st.eventHistory ++ [e]) = st.eventHistory ++ [e]
  rw [if_neg]
  simp only [List.length_append, List.length_cons, List.length_nil, gt_iff_lt, not_lt]
  omega

theorem sameIpFreq_general (env : ExtractEnv) (ip : String) :
    ∀ (evs : List Event) (st : FeatureExtractorState),
      (∀ e ∈ evs, e.srcIp = some ip) →
      (∀ e ∈ st.eventHistory, e.srcIp = some ip) →
      st.eventHistory.length + evs.length ≤ 100 →
      ∀ (k : Nat) (hk : k < (extractAll env st evs).length),
        ((extractAll env st evs).get ⟨k, hk⟩).frequency.sameIpFrequency
          = st.eventHistory.length + k := by
  intro evs
  induction evs with
  | nil =>
    intro st _ _ _ k hk
    exact absurd hk (by simp [extractAll])
  | cons e rest ih =>
    intro st hevs hhist hlen k hk
    have hstep : extractAll env st (e :: rest)
        = (extract env st e).1 :: extractAll env (updateHistory st e) rest := rfl
    have hsrc : e.srcIp = some ip := hevs e (by simp)
    have hsmall : st.eventHistory.length < maxHistory := by
      simp only [List.length_cons] at hlen
      unfold maxHistory
      omega
    have hupdate : (updateHistory st e).eventHistory = st.eventHistory ++ [e] :=
      updateHistory_small st e hsmall
    cases k with
    | zero =>
      show (extract env st e).1.frequency.sameIpFrequency = st.eventHistory.length + 0
      show ((pyTakeLast 100 st.eventHistory).filter
        (fun e2 => decide (e2.srcIp = some (e.srcIp.getD "")))).length
          = st.eventHistory.length + 0
      have htake : pyTakeLast 100 st.eventHistory = st.eventHistory := by
        unfold pyTakeLast
        have hle : st.eventHistory.length ≤ 100 := by
          simp only [List.length_cons] at hlen
          omega
        rw [Nat.sub_eq_zero_of_le hle, List.drop_zero]
      rw [htake]
      have hall : ∀ e2 ∈ st.eventHistory,
          (fun e2 => decide (e2.srcIp = some (e.srcIp.getD ""))) e2 = true := by
        intro e2 he2
        simp [hhist e2 he2, hsrc]
      rw [List.filter_eq_self.mpr hall]
      omega
    | succ k2 =>
      have hk2 : k2 < (extractAll env (updateHistory st e) rest).length := by
        rw [extractAll_length]
        rw [extractAll_length] at hk
        simp only [List.length_cons] at hk
        omega
      have hres := ih (updateHistory st e)
        (fun x hx => hevs x (by simp [hx]))
        (by
          intro x hx
          rw [hupdate] at hx
          rcases List.mem_append.mp hx with hx2 | hx2
          · exact hhist x hx2
          · rw [List.mem_singleton.mp hx2]
            exact hsrc)
        (by
          rw [hupdate]
          simp only [List.length_append, List.length_cons, List.length_nil] at hlen ⊢
          omega)
        k2 hk2
      have hgoal : ((extractAll env st (e :: rest)).get ⟨k2 + 1, hk⟩)
          = ((extractAll env (updateHistory st e) rest).get ⟨k2, hk2⟩) := rfl
      rw [hgoal, hres, hupdate]
      simp only [List.length_append, List.length_cons, List.length_nil]
      omega

/-- C9: for a freshly constructed extractor and a batch of ten events
sharing one non-empty src_ip, extracted in order, the k-th extraction
(0-indexed) reports same_ip_frequency = k: each event is appended to
the history only after its own features are computed, so the count
rises from 0 on the first event to 9 on the tenth. -/
theorem sameIpFrequency_monotone (env : ExtractEnv) (ip : String) (evs : List Event)
    (hip : ip ≠ "") (hlen : evs.length = 10) (hall : ∀ e ∈ evs, e.srcIp = some ip)
    (k : Nat) (hk : k < (extractAll env initialExtractorState evs).length) :
    ((extractAll env initialExtractorState evs).get ⟨k, hk⟩).frequency.sameIpFrequency
      = k := by
  have h := sameIpFreq_general env ip evs initialExtractorState hall
    (by intro e he; simp [initialExtractorState] at he)
    (by simp [initialExtractorState, hlen])
    k hk
  simpa [initialExtractorState] using h

/-- C9 (witness): ten identical events from src_ip 203.0.113.10; the
tenth (index 9) extraction reports same_ip_frequency = 9. -/
theorem sameIpFrequency_monotone_witness :
    ((extractAll cexEnv initialExtractorState
        (List.replicate 10 { srcIp := some "203.0.113.10" })).get
      ⟨9, by rw [extractAll_length]; decide⟩).frequency.sameIpFrequency = 9 :=
  sameIpFrequency_monotone cexEnv "203.0.113.10"
    (List.replicate 10 { srcIp := some "203.0.113.10" })
    (by decide) (by decide)
    (by
      intro e he
      rw [List.eq_of_mem_replicate he])
    9 _

/-- C7 (witness): the map_event theorem evaluated on a one-row
knowledge base, substring matching, and a brute-force SSH log line. -/
theorem mapEvent_spec_witness :
    (mapEvent pyContains
        [⟨"T1110", "Brute Force", "Credential Access", "desc",
          "failed password|invalid user|brute force"⟩]
        { eventType := some "ssh_attempt",
          message := some "Failed password for invalid user admin ssh2" }).Perm
      (([⟨"T1110", "Brute Force", "Credential Access", "desc",
          "failed password|invalid user|brute force"⟩] : List MitreRow).filterMap
        (matchRow pyContains (fullContent
          { eventType := some "ssh_attempt",
            message := some "Failed password for invalid user admin ssh2" }))) ∧
    (mapEvent pyContains
        [⟨"T1110", "Brute Force", "Credential Access", "desc",
          "failed password|invalid user|brute force"⟩]
        { eventType := some "ssh_attempt",
          message := some "Failed password for invalid user admin ssh2" }).Sorted confGE ∧
    (∀ q : ℚ, (mapEvent pyContains
        [⟨"T1110", "Brute Force", "Credential Access", "desc",
          "failed password|invalid user|brute force"⟩]
        { eventType := some "ssh_attempt",
          message := some "Failed password for invalid user admin ssh2" }).filter
          (fun m => decide (m.confidence = q))
      = (([⟨"T1110", "Brute Force", "Credential Access", "desc",
          "failed password|invalid user|brute force"⟩] : List MitreRow).filterMap
          (matchRow pyContains (fullContent
            { eventType := some "ssh_attempt",
              message := some "Failed password for invalid user admin ssh2" }))).filter
          (fun m => decide (m.confidence = q))) ∧
    (∀ row : MitreRow, (matchRow pyContains (fullContent
        { eventType := some "ssh_attempt",
          message := some "Failed password for invalid user admin ssh2" }) row).isSome ↔
      ∃ p ∈ row.patterns.splitOn "|", pyContains (pyStrip p) (fullContent
        { eventType := some "ssh_attempt",
          message := some "Failed password for invalid user admin ssh2" }) = true) ∧
    (∀ m ∈ mapEvent pyContains
        [⟨"T1110", "Brute Force", "Credential Access", "desc",
          "failed password|invalid user|brute force"⟩]
        { eventType := some "ssh_attempt",
          message := some "Failed password for invalid user admin ssh2" },
      m.confidence = (m.matchCount : ℚ) / (m.totalPatterns : ℚ) ∧
        0 < m.confidence ∧ m.confidence ≤ 1) :=
  mapEvent_spec pyContains
    [⟨"T1110", "Brute Force", "Credential Access", "desc",
      "failed password|invalid user|brute force"⟩]
    { eventType := some "ssh_attempt",
      message := some "Failed password for invalid user admin ssh2" }

end SOC
